import Mathlib

/-!
Verification of the Grätzlmap geo-query, slug and API layers.

The JavaScript modules are shallowly embedded: GeoJSON coordinates become
pairs of rationals, features become structures over the fields the code
reads, the Turf point-in-polygon routine is translated statement by
statement, and the stateful API handlers become pure functions from an
explicit state and request outcome to a response.
-/

/-- A planar coordinate pair. GeoJSON stores `(lng, lat)`. -/
abbrev Pt := ℚ × ℚ

def jsTruthyStr : Option String → Bool
  | none => false
  | some s => s != ""

namespace Turf

/-- Boundary test of `booleanPointInPolygon` for the edge from `vj` to `vi`:
the determinant `pt[1]*(xi-xj) + yi*(xj-pt[0]) + yj*(pt[0]-xi)` vanishes and
the point lies in the bounding box of the edge. -/
def onBoundaryTest (pt vj vi : Pt) : Bool :=
  decide (pt.2 * (vi.1 - vj.1) + vi.2 * (vj.1 - pt.1) + vj.2 * (pt.1 - vi.1) = 0) &&
  decide ((vi.1 - pt.1) * (vj.1 - pt.1) ≤ 0) &&
  decide ((vi.2 - pt.2) * (vj.2 - pt.2) ≤ 0)

/-- Ray-crossing test of `booleanPointInPolygon` for the edge from `vj` to `vi`:
`(yi > pt[1]) !== (yj > pt[1]) && pt[0] < ((xj-xi)*(pt[1]-yi))/(yj-yi)+xi`.
The JavaScript `&&` short-circuits, so the division is only reached when the
straddle condition holds and the denominator is nonzero; with the Lean
convention `q / 0 = 0` the value of the conjunction is unchanged. -/
def intersectTest (pt vj vi : Pt) : Bool :=
  (decide (vi.2 > pt.2) != decide (vj.2 > pt.2)) &&
  decide (pt.1 < (vj.1 - vi.1) * (pt.2 - vi.2) / (vj.2 - vi.2) + vi.1)

/-- Edges `(ring[j], ring[i])` for `i = 0 .. n-1` with `j = i-1` cyclically,
starting from the previous vertex `g` (the last vertex of the ring). -/
def edgesFrom (g : Pt) : List Pt → List (Pt × Pt)
  | [] => []
  | v :: rest => (g, v) :: edgesFrom v rest

/-- The cyclic edge list traversed by the `inRing` loop. -/
def ringEdges (ring : List Pt) : List (Pt × Pt) :=
  match ring.getLast? with
  | none => []
  | some g => edgesFrom g ring

/-- The `inRing` prelude drops the last vertex when the ring is explicitly
closed (first vertex equal to last vertex). -/
def trimRing (ring : List Pt) : List Pt :=
  match ring.head?, ring.getLast? with
  | some h, some l => if h = l then ring.dropLast else ring
  | _, _ => ring

/-- Body of the `inRing` loop: an edge on the boundary returns
`!ignoreBoundary` immediately, a crossing edge toggles the accumulator. -/
def inRingEdges (pt : Pt) (ignoreBoundary : Bool) (isInside : Bool) :
    List (Pt × Pt) → Bool
  | [] => isInside
  | (vj, vi) :: rest =>
    if onBoundaryTest pt vj vi then !ignoreBoundary
    else inRingEdges pt ignoreBoundary
      (if intersectTest pt vj vi then !isInside else isInside) rest

def inRing (pt : Pt) (ring : List Pt) (ignoreBoundary : Bool) : Bool :=
  inRingEdges pt ignoreBoundary false (ringEdges (trimRing ring))

/-- For a GeoJSON Polygon the rings are outer ring first, then holes.
The point is inside when it is in the outer ring (boundary counts as
inside) and in no hole (hole boundaries count as outside, since the hole
test runs with `!ignoreBoundary`). -/
def pipCore (pt : Pt) : List (List Pt) → Bool
  | [] => false
  | outer :: holes =>
    if inRing pt outer false then !(holes.any fun h => inRing pt h true)
    else false

/-- Bounding-box prefilter `inBBox`, applied only when the polygon feature
carries an explicit `bbox` member. -/
def inBBox (pt : Pt) (bb : ℚ × ℚ × ℚ × ℚ) : Bool :=
  decide (bb.1 ≤ pt.1) && decide (bb.2.1 ≤ pt.2) &&
  decide (pt.1 ≤ bb.2.2.1) && decide (pt.2 ≤ bb.2.2.2)

/-- `turf.booleanPointInPolygon` for a Polygon geometry, with the optional
feature-level bounding box. -/
def booleanPointInPolygon (pt : Pt) (rings : List (List Pt))
    (bbox : Option (ℚ × ℚ × ℚ × ℚ) := none) : Bool :=
  match bbox with
  | some bb => if !(inBBox pt bb) then false else pipCore pt rings
  | none => pipCore pt rings

end Turf

/-- The property fields the geo-query modules read. Absent JSON members are
`none` or the empty string, mirroring `undefined`. -/
structure Properties where
  featureType : String := ""
  graetzlId : Option Int := none
  category : String := ""
  Graetzl_ID : Option Int := none
deriving DecidableEq, Repr

inductive Geometry where
  | point (lng lat : ℚ)
  | polygon (rings : List (List Pt))
deriving DecidableEq, Repr

structure Feature where
  properties : Properties
  geometry : Geometry
deriving DecidableEq, Repr

structure FC where
  features : List Feature
deriving DecidableEq, Repr

/-- `turf.booleanPointInPolygon(poi, graetzl)` as called on features: the
point coordinates are taken from the POI geometry and the rings from the
Grätzl geometry. On any other geometry combination Turf raises; no caller in
the repository reaches that case and it is modelled as `false`. -/
def pointInFeaturePolygon (poi graetzl : Feature) : Bool :=
  match poi.geometry, graetzl.geometry with
  | .point lng lat, .polygon rings => Turf.booleanPointInPolygon (lng, lat) rings
  | _, _ => false

/-- The filter object `\x7b graetzlId?, category?, categories? \x7d`. -/
structure Filters where
  graetzlId : Option Int := none
  category : Option String := none
  categories : Option (List String) := none
deriving DecidableEq, Repr

namespace Geoquery

/-- Features whose `featureType` property is the string `graetzl`. -/
def getGraetzlFeatures (geoData : FC) : List Feature :=
  geoData.features.filter fun f => f.properties.featureType == "graetzl"

/-- Features whose `featureType` property is the string `poi`. -/
def getPOIFeatures (geoData : FC) : List Feature :=
  geoData.features.filter fun f => f.properties.featureType == "poi"

def getGraetzl (geoData : FC) (graetzlId : Int) : Option Feature :=
  geoData.features.find? fun f =>
    f.properties.featureType == "graetzl" && f.properties.graetzlId == some graetzlId

/-- `filterPOIs(geoData, filters)`: each filter branch runs only when the
corresponding member is truthy in JavaScript (`0`, the empty string, and
absent members are falsy; an array is always truthy). -/
def filterPOIs (geoData : FC) (filters : Filters) : List Feature :=
  let pois := getPOIFeatures geoData
  let pois := match filters.graetzlId with
    | some gid =>
        if gid ≠ 0 then pois.filter (fun p => p.properties.graetzlId == some gid) else pois
    | none => pois
  let pois := match filters.category with
    | some c => if c ≠ "" then pois.filter (fun p => p.properties.category == c) else pois
    | none => pois
  let pois := match filters.categories with
    | some cats => pois.filter (fun p => cats.contains p.properties.category)
    | none => pois
  pois

def findGraetzlAtPoint (geoData : FC) (point : Pt) : Option Feature :=
  (getGraetzlFeatures geoData).find? fun graetzl =>
    match graetzl.geometry with
    | .polygon rings => Turf.booleanPointInPolygon point rings
    | _ => false

def getPOIsInGraetzl (geoData : FC) (graetzlId : Int) : List Feature :=
  match getGraetzl geoData graetzlId with
  | none => []
  | some graetzl => (getPOIFeatures geoData).filter fun poi => pointInFeaturePolygon poi graetzl

end Geoquery

namespace GeoqueryV2

/-- In the second revision of the module the POIs live in their own file:
`getPOIFeatures(geoData)` returns `geoData.features` unfiltered. -/
def getPOIFeatures (geoData : FC) : List Feature :=
  geoData.features

def getGraetzlFeatures (graetzlData : FC) : List Feature :=
  graetzlData.features

def getGraetzl (graetzlData : FC) (graetzlId : Int) : Option Feature :=
  graetzlData.features.find? fun f => f.properties.Graetzl_ID == some graetzlId

def getPOIsInGraetzl (geoData graetzlData : FC) (graetzlId : Int) : List Feature :=
  match getGraetzl graetzlData graetzlId with
  | none => []
  | some graetzl => (getPOIFeatures geoData).filter fun poi => pointInFeaturePolygon poi graetzl

/-- `filterPOIs` of the second revision; textually the same branches as
`Geoquery.filterPOIs` but over the unfiltered feature list. -/
def filterPOIs (geoData : FC) (filters : Filters) : List Feature :=
  let pois := getPOIFeatures geoData
  let pois := match filters.graetzlId with
    | some gid =>
        if gid ≠ 0 then pois.filter (fun p => p.properties.graetzlId == some gid) else pois
    | none => pois
  let pois := match filters.category with
    | some c => if c ≠ "" then pois.filter (fun p => p.properties.category == c) else pois
    | none => pois
  let pois := match filters.categories with
    | some cats => pois.filter (fun p => cats.contains p.properties.category)
    | none => pois
  pois

/-- `filterPOIsWithGraetzl(geoData, graetzlData, filters)`: spatial filter
when a Grätzl with the requested id exists, then category filter when the
categories list is nonempty. When no Grätzl matches, the spatial step is
skipped and the POIs pass through unfiltered. -/
def filterPOIsWithGraetzl (geoData graetzlData : FC) (filters : Filters) : List Feature :=
  let pois := getPOIFeatures geoData
  let pois := match filters.graetzlId with
    | some gid =>
        if gid ≠ 0 then
          match getGraetzl graetzlData gid with
          | some graetzl => pois.filter fun poi => pointInFeaturePolygon poi graetzl
          | none => pois
        else pois
    | none => pois
  let pois := match filters.categories with
    | some cats =>
        if cats.length > 0 then pois.filter (fun p => cats.contains p.properties.category) else pois
    | none => pois
  pois

end GeoqueryV2

/-! ### Demonstration data used by witnesses and counterexamples -/

def cafePOI : Feature := ⟨{ category := "cafe" }, .point 1 1⟩

def squareGraetzl : Feature :=
  ⟨{ Graetzl_ID := some 1 }, .polygon [[(0, 0), (4, 0), (4, 4), (0, 4), (0, 0)]]⟩

def demoGeoV2 : FC := ⟨[cafePOI]⟩

def demoGraetzlData : FC := ⟨[squareGraetzl]⟩

/-- C1 counterexample: with one POI of category `cafe`, an empty Grätzl
collection and a filter naming Grätzl id 1, `filterPOIsWithGraetzl` keeps the
POI (the spatial step is skipped when no Grätzl matches) while the
composition through `getPOIsInGraetzl` returns the empty list. -/
theorem filterPOIsWithGraetzl_ne_composition :
    GeoqueryV2.filterPOIsWithGraetzl ⟨[cafePOI]⟩ ⟨[]⟩
        { graetzlId := some 1, categories := some ["cafe"] } ≠
      GeoqueryV2.filterPOIs ⟨GeoqueryV2.getPOIsInGraetzl ⟨[cafePOI]⟩ ⟨[]⟩ 1⟩
        { categories := some ["cafe"] } := by
  decide

/-- C1 (amended): for every geoData, graetzlData and filter object carrying a
truthy `graetzlId` and a nonempty `categories` list, and provided a Grätzl
with that id exists, `filterPOIsWithGraetzl` equals the composition of
`getPOIsInGraetzl` with the category restriction of `filterPOIs`. -/
theorem filterPOIsWithGraetzl_eq_composition (geoData graetzlData : FC)
    (filters : Filters) (gid : Int) (cats : List String)
    (hgid : filters.graetzlId = some gid) (hgz : gid ≠ 0)
    (hcats : filters.categories = some cats) (hne : 0 < cats.length)
    (hex : (GeoqueryV2.getGraetzl graetzlData gid).isSome) :
    GeoqueryV2.filterPOIsWithGraetzl geoData graetzlData filters =
      GeoqueryV2.filterPOIs ⟨GeoqueryV2.getPOIsInGraetzl geoData graetzlData gid⟩
        { categories := some cats } := by
  obtain ⟨g, hg⟩ := Option.isSome_iff_exists.mp hex
  simp only [GeoqueryV2.filterPOIsWithGraetzl, GeoqueryV2.filterPOIs,
    GeoqueryV2.getPOIsInGraetzl, GeoqueryV2.getPOIFeatures, hgid, hg, hcats]
  rw [if_pos hgz, if_pos hne]

/-- Witness for the amended C1 at a concrete square Grätzl containing the POI. -/
theorem filterPOIsWithGraetzl_eq_composition_witness :
    (GeoqueryV2.getGraetzl demoGraetzlData 1).isSome = true ∧
    GeoqueryV2.filterPOIsWithGraetzl demoGeoV2 demoGraetzlData
        { graetzlId := some 1, categories := some ["cafe"] } =
      GeoqueryV2.filterPOIs ⟨GeoqueryV2.getPOIsInGraetzl demoGeoV2 demoGraetzlData 1⟩
        { categories := some ["cafe"] } :=
  ⟨by decide,
   filterPOIsWithGraetzl_eq_composition demoGeoV2 demoGraetzlData _ 1 ["cafe"]
     rfl (by decide) rfl (by decide) (by decide)⟩

/-- C2: with an empty filter object `filterPOIs` returns exactly the POI
features in their original order, and with a nonempty categories list it
returns the in-order subsequence of POI features whose category is in the
requested set. -/
theorem filterPOIs_empty_identity_and_categories (geoData : FC)
    (cats : List String) (hne : cats ≠ []) :
    Geoquery.filterPOIs geoData {} = Geoquery.getPOIFeatures geoData ∧
    Geoquery.filterPOIs geoData { categories := some cats } =
      (Geoquery.getPOIFeatures geoData).filter
        (fun p => cats.contains p.properties.category) ∧
    (Geoquery.filterPOIs geoData { categories := some cats }).Sublist
      (Geoquery.getPOIFeatures geoData) := by
  refine ⟨rfl, rfl, ?_⟩
  exact List.filter_sublist _

def demoPOI (cat : String) : Feature :=
  ⟨{ featureType := "poi", category := cat }, .point 16 48⟩

def demoGeo : FC := ⟨[demoPOI "cafe", demoPOI "bar"]⟩

/-- Witness for C2 on a two-POI collection and the singleton category set. -/
theorem filterPOIs_empty_identity_and_categories_witness :
    (["cafe"] : List String) ≠ [] ∧
    Geoquery.filterPOIs demoGeo { categories := some ["cafe"] } =
      (Geoquery.getPOIFeatures demoGeo).filter
        (fun p => (["cafe"] : List String).contains p.properties.category) :=
  ⟨by decide, (filterPOIs_empty_identity_and_categories demoGeo ["cafe"] (by decide)).2.1⟩

namespace LC

/-- Untyped JavaScript values as far as the coordinate helpers inspect them.
`null` also stands for `undefined`. -/
inductive JSVal where
  | num (q : ℚ)
  | str (s : String)
  | arr (elems : List JSVal)
  | null

/-- Indexing `v[i]`: throws (`none`) on null and undefined, yields the
element or `undefined` on arrays, a one-character string on strings, and
`undefined` on numbers. -/
def jsIndex : JSVal → Nat → Option JSVal
  | .null, _ => none
  | .arr xs, i => some (xs.getD i .null)
  | .num _, _ => some .null
  | .str s, i =>
    some (match s.data[i]? with
      | some c => .str (String.singleton c)
      | none => .null)

def isNumber : JSVal → Bool
  | .num _ => true
  | _ => false

def isArray : JSVal → Bool
  | .arr _ => true
  | _ => false

structure LCGeometry where
  type : String
  coordinates : JSVal

structure LCFeature where
  geometry : LCGeometry

/-- Swap one coordinate pair, as done inside the polygon branches:
`coord => [coord[1], coord[0]]`. -/
def swapAt (c : JSVal) : Option JSVal := do
  let a ← jsIndex c 1
  let b ← jsIndex c 0
  pure (JSVal.arr [a, b])

/-- `featureToLeafletCoords(feature)`: Point coordinates are swapped to
`[lat, lng]`, the outer Polygon ring is swapped elementwise, any other
geometry type yields `null`. A thrown TypeError is modelled as `none`. -/
def featureToLeafletCoords (f : LCFeature) : Option JSVal :=
  if f.geometry.type = "Point" then do
    let a ← jsIndex f.geometry.coordinates 1
    let b ← jsIndex f.geometry.coordinates 0
    pure (JSVal.arr [a, b])
  else if f.geometry.type = "Polygon" then
    match jsIndex f.geometry.coordinates 0 with
    | none => none
    | some v =>
      match v with
      | .arr ring => (ring.mapM swapAt).map JSVal.arr
      | _ => none
  else
    some .null

/-- `leafletCoordsToGeoJSON(coords)`: a two-element numeric array is swapped,
an array whose first element is an array is swapped elementwise, anything
else passes through unchanged (accessing `coords[0]` throws on null). -/
def leafletCoordsToGeoJSON (coords : JSVal) : Option JSVal :=
  match coords with
  | .arr xs =>
    if xs.length = 2 && isNumber (xs.getD 0 .null) then
      some (.arr [xs.getD 1 .null, xs.getD 0 .null])
    else if isArray (xs.getD 0 .null) then
      (xs.mapM swapAt).map JSVal.arr
    else
      some coords
  | .null => none
  | v => some v

end LC

/-- C3: converting a Point feature with numeric `[lng, lat]` coordinates to
Leaflet order and back reproduces the pair exactly, and a numeric
`[lat, lng]` pair converted to GeoJSON order and wrapped back through a
Point feature is also reproduced exactly. -/
theorem leaflet_coords_roundtrip (lng lat : ℚ) :
    (LC.featureToLeafletCoords ⟨⟨"Point", .arr [.num lng, .num lat]⟩⟩).bind
        LC.leafletCoordsToGeoJSON = some (.arr [.num lng, .num lat]) ∧
    (LC.leafletCoordsToGeoJSON (.arr [.num lat, .num lng])).bind
        (fun g => LC.featureToLeafletCoords ⟨⟨"Point", g⟩⟩) =
      some (.arr [.num lat, .num lng]) := by
  constructor <;> rfl

namespace Slug

/-- Model of `String.prototype.toLowerCase` by characters. ASCII letters
lowercase as usual; `Ä`, `Ö`, `Ü` become their lowercase umlauts, capital
`ẞ` (U+1E9E) becomes `ß`, the Kelvin sign (U+212A) becomes `k`, and dotted
`İ` (U+0130) expands to `i` followed by the combining dot above (U+0307),
the one special lowercase mapping. These are exactly the Unicode lowercase
mappings whose image meets the characters the slug pipeline preserves
(`[a-z0-9äöüß]`); any other character and its lowercase image both lie
outside that set and collapse into the same hyphen run, so leaving them
unchanged is invisible to the slug. -/
def jsToLowerChars (c : Char) : List Char :=
  if c = 'Ä' then ['ä']
  else if c = 'Ö' then ['ö']
  else if c = 'Ü' then ['ü']
  else if c = 'ẞ' then ['ß']
  else if c = '\u212A' then ['k']
  else if c = 'İ' then ['i', '\u0307']
  else [c.toLower]

/-- Characters the regex `[^a-z0-9]+` leaves alone. -/
def isSlugAlnum (c : Char) : Bool :=
  (decide ('a' ≤ c) && decide (c ≤ 'z')) || (decide ('0' ≤ c) && decide (c ≤ '9'))

/-- Global replacement of a single-character pattern, the semantics of
`.replace(/ä/g, 'ae')` and friends: each occurrence expands in place. -/
def replaceAllChar (pat : Char) (rep : List Char) (l : List Char) : List Char :=
  l.flatMap fun c => if c = pat then rep else [c]

/-- The four chained umlaut replacements of `nameToSlug`. -/
def replaceUmlauts (l : List Char) : List Char :=
  replaceAllChar 'ß' ['s', 's']
    (replaceAllChar 'ü' ['u', 'e']
      (replaceAllChar 'ö' ['o', 'e']
        (replaceAllChar 'ä' ['a', 'e'] l)))

/-- The replacement `.replace(/[^a-z0-9]+/g, '-')`: every maximal run of
characters outside `[a-z0-9]` becomes one hyphen. A hyphen in the output of
the recursive call can only stem from such a run, so a non-alphanumeric
character merges with a following run instead of emitting a second hyphen. -/
def collapseRuns : List Char → List Char
  | [] => []
  | c :: cs =>
    if isSlugAlnum c then c :: collapseRuns cs
    else
      match collapseRuns cs with
      | '-' :: rest => '-' :: rest
      | tail => '-' :: tail

/-- The replacement `.replace(/^-+|-+$/g, '')`: leading and trailing hyphen
runs are removed. -/
def stripDashes (l : List Char) : List Char :=
  ((l.dropWhile (· == '-')).reverse.dropWhile (· == '-')).reverse

def slugCore (l : List Char) : List Char :=
  stripDashes (collapseRuns (replaceUmlauts l))

/-- The three input shapes `nameToSlug` handles: null or undefined, a plain
string, and a localized object with optional `de` and `en` members. -/
inductive NameInput where
  | jsNull
  | str (s : String)
  | obj (de en : Option String)

/-- JavaScript `a || b` on an optional string and a fallback. -/
def jsOrS (v : Option String) (fallback : String) : String :=
  match v with
  | some s => if s = "" then fallback else s
  | none => fallback

/-- `nameToSlug(name)`: falsy input gives the empty slug, an object is
replaced by `name.de || name.en || ''` first, then the string runs through
lowercasing, umlaut transliteration, run collapsing and hyphen stripping. -/
def nameToSlug : NameInput → String
  | .jsNull => ""
  | .str s => if s = "" then "" else String.mk (slugCore (s.data.flatMap jsToLowerChars))
  | .obj de en => String.mk (slugCore ((jsOrS de (jsOrS en "")).data.flatMap jsToLowerChars))

/-! Spec-side formulation: transliterate characterwise, mark every other
non-alphanumeric character as a hyphen, then collapse repeated hyphens and
strip the ends. -/

def translitChar (c : Char) : List Char :=
  if c = 'ä' then ['a', 'e']
  else if c = 'ö' then ['o', 'e']
  else if c = 'ü' then ['u', 'e']
  else if c = 'ß' then ['s', 's']
  else [c]

def dashifyChar (c : Char) : Char :=
  if isSlugAlnum c then c else '-'

def squeezeDashes : List Char → List Char
  | [] => []
  | [c] => [c]
  | a :: b :: r =>
    if a = '-' && b = '-' then squeezeDashes (b :: r) else a :: squeezeDashes (b :: r)

/-- Slug pipeline as the specification words it. -/
def slugSpec (s : String) : String :=
  String.mk
    (stripDashes
      (squeezeDashes (((s.data.flatMap jsToLowerChars).flatMap translitChar).map dashifyChar)))

/-- The truthiness-respecting choice the specification describes: the `de`
name when it is a nonempty string, otherwise the `en` name, otherwise empty. -/
def chosenName (de en : Option String) : String :=
  if jsTruthyStr de then de.getD "" else if jsTruthyStr en then en.getD "" else ""

theorem replaceUmlauts_single (c : Char) : replaceUmlauts [c] = translitChar c := by
  by_cases h₁ : c = 'ä' <;> by_cases h₂ : c = 'ö' <;> by_cases h₃ : c = 'ü' <;>
    by_cases h₄ : c = 'ß' <;>
    simp_all [replaceUmlauts, replaceAllChar, translitChar]

theorem replaceUmlauts_eq_bind (l : List Char) : replaceUmlauts l = l.flatMap translitChar := by
  induction l with
  | nil => rfl
  | cons c cs ih =>
    have hsplit : replaceUmlauts (c :: cs) = replaceUmlauts [c] ++ replaceUmlauts cs := by
      simp [replaceUmlauts, replaceAllChar]
    rw [hsplit, replaceUmlauts_single, ih, List.flatMap_cons]

theorem squeezeDashes_cons_ne (a : Char) (l : List Char) (h : a ≠ '-') :
    squeezeDashes (a :: l) = a :: squeezeDashes l := by
  cases l with
  | nil => rfl
  | cons b r => simp [squeezeDashes, h]

theorem squeezeDashes_dash_head (r : List Char) :
    ∃ t, squeezeDashes ('-' :: r) = '-' :: t := by
  induction r with
  | nil => exact ⟨[], rfl⟩
  | cons b bs ih =>
    by_cases hb : b = '-'
    · subst hb
      simpa [squeezeDashes] using ih
    · exact ⟨squeezeDashes (b :: bs), by simp [squeezeDashes, hb]⟩

theorem collapseRuns_eq_squeeze (l : List Char) :
    collapseRuns l = squeezeDashes (l.map dashifyChar) := by
  induction l with
  | nil => rfl
  | cons c cs ih =>
    by_cases hc : isSlugAlnum c
    · have hcd : c ≠ '-' := by
        intro h
        subst h
        simp [isSlugAlnum] at hc
      have : dashifyChar c = c := by simp [dashifyChar, hc]
      simp only [collapseRuns, hc, if_true, List.map_cons, this, ih,
        squeezeDashes_cons_ne c _ hcd]
    · have hdc : dashifyChar c = '-' := by simp [dashifyChar, hc]
      simp only [collapseRuns, hc, if_false, List.map_cons, hdc]
      cases hmap : cs.map dashifyChar with
      | nil =>
        have : collapseRuns cs = [] := by
          cases cs with
          | nil => rfl
          | cons d ds => simp at hmap
        simp [ih, hmap, squeezeDashes]
      | cons b r =>
        by_cases hb : b = '-'
        · subst hb
          obtain ⟨t, ht⟩ := squeezeDashes_dash_head r
          rw [ih, hmap] at *
          simp [squeezeDashes, ht]
        · rw [ih, hmap, squeezeDashes_cons_ne b r hb]
          simp [squeezeDashes, hb, squeezeDashes_cons_ne b r hb]

theorem slugCore_eq_spec (s : String) :
    String.mk (slugCore (s.data.flatMap jsToLowerChars)) = slugSpec s := by
  simp only [slugCore, slugSpec, replaceUmlauts_eq_bind, collapseRuns_eq_squeeze]

theorem jsOrS_eq_chosenName (de en : Option String) :
    jsOrS de (jsOrS en "") = chosenName de en := by
  cases de <;> cases en <;>
    simp [jsOrS, chosenName, jsTruthyStr] <;>
    split_ifs <;> simp_all

end Slug

/-- C5: the two documented slug examples hold, and for every string the slug
equals the deterministic pipeline of lowercasing, umlaut transliteration,
collapsing non-alphanumeric runs to single hyphens and stripping boundary
hyphens. -/
theorem nameToSlug_examples_and_pipeline :
    Slug.nameToSlug (.str "Alservorstadt und Michelbeuern") =
      "alservorstadt-und-michelbeuern" ∧
    Slug.nameToSlug (.str "Die schönsten Märkte") = "die-schoensten-maerkte" ∧
    ∀ s : String, Slug.nameToSlug (.str s) = Slug.slugSpec s := by
  refine ⟨by decide, by decide, ?_⟩
  intro s
  by_cases hs : s = ""
  · subst hs
    rfl
  · simp only [Slug.nameToSlug, hs, if_false, Slug.slugCore_eq_spec]

/-- C9: `nameToSlug` is total over null, strings and localized objects;
falsy inputs give the empty slug and an object is slugged from its `de`
name when that is a nonempty string, else from `en`, else gives the empty
slug (`slugSpec` of the empty string). -/
theorem nameToSlug_total_cases :
    Slug.nameToSlug .jsNull = "" ∧
    Slug.nameToSlug (.str "") = "" ∧
    Slug.chosenName none none = "" ∧
    Slug.slugSpec "" = "" ∧
    ∀ de en, Slug.nameToSlug (.obj de en) = Slug.slugSpec (Slug.chosenName de en) := by
  refine ⟨rfl, rfl, rfl, rfl, ?_⟩
  intro de en
  simp only [Slug.nameToSlug, Slug.jsOrS_eq_chosenName, Slug.slugCore_eq_spec]

namespace I18n

/-- The two shapes of translatable text, plus null or undefined. -/
inductive TextVal where
  | jsNull
  | str (s : String)
  | obj (entries : List (String × String))

/-- Property lookup `textObj[key]` on the localized object. -/
def jsProp (entries : List (String × String)) (key : String) : Option String :=
  (entries.find? fun e => e.1 == key).map (·.2)

/-- JavaScript `a || b` where `a` is the looked-up member. -/
def jsOrStr (v : Option String) (fallback : String) : String :=
  match v with
  | some s => if s = "" then fallback else s
  | none => fallback

/-- `getTranslated(textObj)`: empty string for falsy input, the string
itself for a string, and `textObj[currentLanguage] || textObj.de ||
textObj.en || ''` for a localized object. -/
def getTranslated (currentLanguage : String) (textObj : TextVal) : String :=
  match textObj with
  | .jsNull => ""
  | .str s => s
  | .obj m =>
    jsOrStr (jsProp m currentLanguage) (jsOrStr (jsProp m "de") (jsOrStr (jsProp m "en") ""))

end I18n

/-- C10: `getTranslated` is a total normalization: null gives the empty
string, a string passes through unchanged, and an object resolves to the
current language entry when that is a nonempty string, else the `de` entry,
else the `en` entry, else the empty string. -/
theorem getTranslated_total_cases (lang : String) (m : List (String × String)) :
    I18n.getTranslated lang .jsNull = "" ∧
    (∀ s, I18n.getTranslated lang (.str s) = s) ∧
    (∀ v, I18n.jsProp m lang = some v → v ≠ "" →
      I18n.getTranslated lang (.obj m) = v) ∧
    (jsTruthyStr (I18n.jsProp m lang) = false → ∀ v, I18n.jsProp m "de" = some v → v ≠ "" →
      I18n.getTranslated lang (.obj m) = v) ∧
    (jsTruthyStr (I18n.jsProp m lang) = false → jsTruthyStr (I18n.jsProp m "de") = false →
      ∀ v, I18n.jsProp m "en" = some v → v ≠ "" →
        I18n.getTranslated lang (.obj m) = v) ∧
    (jsTruthyStr (I18n.jsProp m lang) = false → jsTruthyStr (I18n.jsProp m "de") = false →
      jsTruthyStr (I18n.jsProp m "en") = false →
        I18n.getTranslated lang (.obj m) = "") := by
  refine ⟨rfl, fun s => rfl, ?_, ?_, ?_, ?_⟩
  · intro v hv hne
    simp [I18n.getTranslated, hv, I18n.jsOrStr, hne]
  · intro hlang v hv hne
    rcases hcur : I18n.jsProp m lang with _ | w
    · simp [I18n.getTranslated, hcur, hv, I18n.jsOrStr, hne]
    · have hw : w = "" := by
        by_contra hww
        simp [hcur, jsTruthyStr, hww] at hlang
      subst hw
      simp [I18n.getTranslated, hcur, hv, I18n.jsOrStr, hne]
  · intro hlang hde v hv hne
    have hde' : ∀ w, I18n.jsProp m "de" = some w → w = "" := by
      intro w hw
      by_contra hww
      simp [hw, jsTruthyStr, hww] at hde
    rcases hcur : I18n.jsProp m lang with _ | w
    · rcases hd : I18n.jsProp m "de" with _ | w'
      · simp [I18n.getTranslated, hcur, hd, hv, I18n.jsOrStr, hne]
      · have := hde' w' hd
        subst this
        simp [I18n.getTranslated, hcur, hd, hv, I18n.jsOrStr, hne]
    · have hw : w = "" := by
        by_contra hww
        simp [hcur, jsTruthyStr, hww] at hlang
      subst hw
      rcases hd : I18n.jsProp m "de" with _ | w'
      · simp [I18n.getTranslated, hcur, hd, hv, I18n.jsOrStr, hne]
      · have := hde' w' hd
        subst this
        simp [I18n.getTranslated, hcur, hd, hv, I18n.jsOrStr, hne]
  · intro hlang hde hen
    have falsy : ∀ (v : Option String) (fb : String), jsTruthyStr v = false →
        I18n.jsOrStr v fb = fb := by
      intro v fb hv
      cases v with
      | none => rfl
      | some s =>
        simp only [jsTruthyStr, bne_eq_false_iff_eq] at hv
        simp [I18n.jsOrStr, hv]
    show I18n.jsOrStr _ _ = ""
    rw [falsy _ _ hlang, falsy _ _ hde, falsy _ _ hen]

/-- Witness for C10: a language hit, the full fallback chain, and the empty
object, all at concrete entries. -/
theorem getTranslated_total_cases_witness :
    I18n.jsProp [("en", "Hello")] "en" = some "Hello" ∧
    I18n.getTranslated "en" (.obj [("en", "Hello")]) = "Hello" ∧
    jsTruthyStr (I18n.jsProp [("en", "Hello")] "de") = false ∧
    I18n.getTranslated "de" (.obj [("en", "Hello")]) = "Hello" ∧
    I18n.getTranslated "de" (.obj []) = "" :=
  ⟨rfl,
   (getTranslated_total_cases "en" [("en", "Hello")]).2.2.1 "Hello" rfl (by decide),
   rfl,
   (getTranslated_total_cases "de" [("en", "Hello")]).2.2.2.2.1 (by decide) (by decide)
     "Hello" rfl (by decide),
   (getTranslated_total_cases "de" []).2.2.2.2.2 (by decide) (by decide) (by decide)⟩

namespace Load

/-- Opaque parsed GeoJSON payload. -/
structure GeoPayload where
  json : String
deriving DecidableEq

/-- Outcome of one attempted fetch of the data file: success with a parsed
payload, or any failure (network rejection, a non-ok HTTP status, or a JSON
parse error) with the thrown message. -/
inductive FetchResult where
  | ok (payload : GeoPayload)
  | fail (msg : String)
deriving DecidableEq

/-- `loadGeoData()` over the module cache: a filled cache is returned
without fetching; otherwise the fetch result is stored on success and the
error propagates on failure, leaving the cache empty. The first component
is the cache after the call, the second the returned or thrown value. -/
def loadGeoData (cache : Option GeoPayload) (fetch : FetchResult) :
    Option GeoPayload × Except String GeoPayload :=
  match cache with
  | some d => (some d, .ok d)
  | none =>
    match fetch with
    | .ok d => (some d, .ok d)
    | .fail msg => (none, .error msg)

end Load

/-- C8: `loadGeoData` throws exactly when the cache is empty and the fetch
fails; a successful first call fills the cache; calls with a filled cache
return the cached payload independently of the fetch outcome and never
clear the cache; a failed call leaves the cache empty so that the next call
retries the fetch. -/
theorem loadGeoData_cache_behaviour :
    (∀ cache fetch, (∃ e, (Load.loadGeoData cache fetch).2 = .error e) ↔
      (cache = none ∧ ∀ d, fetch ≠ .ok d)) ∧
    (∀ d, Load.loadGeoData none (.ok d) = (some d, .ok d)) ∧
    (∀ d fetch fetch', Load.loadGeoData (some d) fetch = Load.loadGeoData (some d) fetch' ∧
      Load.loadGeoData (some d) fetch = (some d, .ok d)) ∧
    (∀ msg, (Load.loadGeoData none (.fail msg)).1 = none ∧
      ∀ d, Load.loadGeoData (Load.loadGeoData none (.fail msg)).1 (.ok d) =
        (some d, .ok d)) := by
  refine ⟨?_, fun d => rfl, fun d fetch fetch' => ⟨rfl, rfl⟩, fun msg => ⟨rfl, fun d => rfl⟩⟩
  intro cache fetch
  constructor
  · rintro ⟨e, he⟩
    cases cache with
    | some d => simp [Load.loadGeoData] at he
    | none =>
      cases fetch with
      | ok d => simp [Load.loadGeoData] at he
      | fail m => exact ⟨rfl, fun d h => Load.FetchResult.noConfusion h⟩
  · rintro ⟨rfl, hf⟩
    cases fetch with
    | ok d => exact absurd rfl (hf d)
    | fail m => exact ⟨m, rfl⟩

namespace ListsApi

/-- A stored list record: the id plus the rest of the JSON payload, kept
opaque. -/
structure ListRec where
  id : String
  payload : String
deriving DecidableEq, Repr

structure ListsFile where
  lists : List ListRec
deriving DecidableEq, Repr

/-- `PUT /api/lists/[id]`: find the index of the record whose id equals the
path id, overwrite the payload id with the path id, replace the record in
place; report 404 and leave the state unchanged when no record matches. -/
def PUT (stored : ListsFile) (pathId : String) (body : ListRec) : ListsFile × Nat :=
  match stored.lists.findIdx? (fun l => l.id == pathId) with
  | none => (stored, 404)
  | some index =>
    let updated : ListRec := { body with id := pathId }
    (⟨stored.lists.set index updated⟩, 200)

theorem findIdx?_set_self {α : Type} {p : α → Bool} {l : List α} {i : ℕ} {a : α}
    (h : l.findIdx? p = some i) (ha : p a = true) :
    (l.set i a).findIdx? p = some i := by
  rw [List.findIdx?_eq_some_iff_getElem] at h ⊢
  obtain ⟨hi, hpi, hprev⟩ := h
  refine ⟨by simpa using hi, ?_, ?_⟩
  · rw [List.getElem_set_self]
    exact ha
  · intro j hj
    rw [List.getElem_set_ne (by omega)]
    exact hprev j hj

end ListsApi

/-- C6: when the stored state contains a record with the path id, running
the lists PUT handler twice with the identical payload gives the same
stored state after the first and the second run, creates no new entries,
and the stored record carries the path id whatever id the payload held. -/
theorem listsPUT_idempotent_and_id_preserved (stored : ListsApi.ListsFile)
    (pathId : String) (body : ListsApi.ListRec)
    (hex : ∃ r ∈ stored.lists, r.id = pathId) :
    ((ListsApi.PUT (ListsApi.PUT stored pathId body).1 pathId body).1 =
        (ListsApi.PUT stored pathId body).1) ∧
    (ListsApi.PUT stored pathId body).1.lists.length = stored.lists.length ∧
    (∃ i : ℕ, (ListsApi.PUT stored pathId body).1.lists[i]? =
        some { body with id := pathId }) ∧
    ({ body with id := pathId } : ListsApi.ListRec).id = pathId := by
  obtain ⟨r, hr, hrid⟩ := hex
  have hfind := List.findIdx?_eq_some_of_exists
    (p := fun l : ListsApi.ListRec => l.id == pathId) ⟨r, hr, by simp [hrid]⟩
  set i := stored.lists.findIdx (fun l => l.id == pathId) with hi
  have hlt : i < stored.lists.length := by
    rw [List.findIdx?_eq_some_iff_findIdx_eq] at hfind
    exact hfind.1
  have hfind2 : ((stored.lists.set i { body with id := pathId }).findIdx?
      (fun l => l.id == pathId)) = some i :=
    ListsApi.findIdx?_set_self hfind (by simp)
  refine ⟨?_, ?_, ?_, rfl⟩
  · simp only [ListsApi.PUT, hfind, hfind2, List.set_set]
  · simp only [ListsApi.PUT, hfind, List.length_set]
  · refine ⟨i, ?_⟩
    simp only [ListsApi.PUT, hfind]
    exact List.getElem?_set_self hlt

/-- Witness for C6: one stored record, a payload carrying a different id. -/
theorem listsPUT_idempotent_and_id_preserved_witness :
    (∃ r ∈ (⟨[⟨"a", "x"⟩]⟩ : ListsApi.ListsFile).lists, r.id = "a") ∧
    ((ListsApi.PUT (ListsApi.PUT ⟨[⟨"a", "x"⟩]⟩ "a" ⟨"zzz", "y"⟩).1 "a" ⟨"zzz", "y"⟩).1 =
      (ListsApi.PUT ⟨[⟨"a", "x"⟩]⟩ "a" ⟨"zzz", "y"⟩).1) :=
  ⟨⟨⟨"a", "x"⟩, by simp, rfl⟩,
   (listsPUT_idempotent_and_id_preserved ⟨[⟨"a", "x"⟩]⟩ "a" ⟨"zzz", "y"⟩
     ⟨⟨"a", "x"⟩, by simp, rfl⟩).1⟩

namespace Api

/-- Response body shapes the handlers produce. -/
inductive Body where
  | errorBody (msg : String)
  | errorWithCategory (msg : String)
  | successBody
  | dataBody
  | existsBody
deriving DecidableEq, Repr

structure Resp where
  status : ℕ
  body : Body
deriving DecidableEq, Repr

/-- A response whose JSON body carries an `error` member. -/
def isErrorResp (r : Resp) : Bool :=
  match r.body with
  | .errorBody _ => true
  | .errorWithCategory _ => true
  | _ => false

def isErr {α : Type} : Except String α → Bool
  | .error _ => true
  | .ok _ => false

/-- `GET /api/categories`. -/
def categoriesGET (read : Except String Unit) : Resp :=
  match read with
  | .ok _ => ⟨200, .dataBody⟩
  | .error m => ⟨500, .errorBody m⟩

/-- `POST /api/categories`: the parsed body yields the optional `key` and
`name` members, the file read yields the existing category keys. -/
def categoriesPOST (parse : Except String (Option String × Option String))
    (read : Except String (List String)) (write : Except String Unit) : Resp :=
  match parse with
  | .error m => ⟨500, .errorBody m⟩
  | .ok (key, name) =>
    if !(jsTruthyStr key && jsTruthyStr name) then
      ⟨400, .errorBody "Category key and name are required"⟩
    else
      match read with
      | .error m => ⟨500, .errorBody m⟩
      | .ok existingKeys =>
        if existingKeys.contains (key.getD "") then
          ⟨409, .errorWithCategory "Category already exists"⟩
        else
          match write with
          | .error m => ⟨500, .errorBody m⟩
          | .ok _ => ⟨201, .successBody⟩

/-- `GET /api/lists`. -/
def listsGET (read : Except String Unit) : Resp :=
  match read with
  | .ok _ => ⟨200, .dataBody⟩
  | .error m => ⟨500, .errorBody m⟩

/-- `POST /api/lists`. -/
def listsPOST (parse read write : Except String Unit) : Resp :=
  match parse with
  | .error m => ⟨500, .errorBody m⟩
  | .ok _ =>
    match read with
    | .error m => ⟨500, .errorBody m⟩
    | .ok _ =>
      match write with
      | .error m => ⟨500, .errorBody m⟩
      | .ok _ => ⟨201, .successBody⟩

/-- `GET /api/lists/[id]`: the file read yields the stored ids. -/
def listsIdGET (pathId : String) (read : Except String (List String)) : Resp :=
  match read with
  | .error m => ⟨500, .errorBody m⟩
  | .ok ids =>
    if !(ids.contains pathId) then ⟨404, .errorBody "List not found"⟩
    else ⟨200, .dataBody⟩

/-- `PUT /api/lists/[id]`: body parse first, then read, then index lookup. -/
def listsIdPUT (pathId : String) (parse : Except String Unit)
    (read : Except String (List String)) (write : Except String Unit) : Resp :=
  match parse with
  | .error m => ⟨500, .errorBody m⟩
  | .ok _ =>
    match read with
    | .error m => ⟨500, .errorBody m⟩
    | .ok ids =>
      if !(ids.contains pathId) then ⟨404, .errorBody "List not found"⟩
      else
        match write with
        | .error m => ⟨500, .errorBody m⟩
        | .ok _ => ⟨200, .successBody⟩

/-- `DELETE /api/lists/[id]`. -/
def listsIdDELETE (pathId : String) (read : Except String (List String))
    (write : Except String Unit) : Resp :=
  match read with
  | .error m => ⟨500, .errorBody m⟩
  | .ok ids =>
    if !(ids.contains pathId) then ⟨404, .errorBody "List not found"⟩
    else
      match write with
      | .error m => ⟨500, .errorBody m⟩
      | .ok _ => ⟨200, .successBody⟩

/-- `GET /api/pois` (directory scan plus per-file reads). -/
def poisGET (read : Except String Unit) : Resp :=
  match read with
  | .ok _ => ⟨200, .dataBody⟩
  | .error m => ⟨500, .errorBody m⟩

/-- `POST /api/pois`. -/
def poisPOST (parse write : Except String Unit) : Resp :=
  match parse with
  | .error m => ⟨500, .errorBody m⟩
  | .ok _ =>
    match write with
    | .error m => ⟨500, .errorBody m⟩
    | .ok _ => ⟨201, .successBody⟩

/-- `GET /api/pois/[id]`: the `existsSync` check runs before the read. -/
def poisIdGET (idExists : Bool) (read : Except String Unit) : Resp :=
  if !idExists then ⟨404, .errorBody "POI not found"⟩
  else
    match read with
    | .error m => ⟨500, .errorBody m⟩
    | .ok _ => ⟨200, .dataBody⟩

/-- `PUT /api/pois/[id]`: the `existsSync` check runs before the body parse. -/
def poisIdPUT (idExists : Bool) (parse write : Except String Unit) : Resp :=
  if !idExists then ⟨404, .errorBody "POI not found"⟩
  else
    match parse with
    | .error m => ⟨500, .errorBody m⟩
    | .ok _ =>
      match write with
      | .error m => ⟨500, .errorBody m⟩
      | .ok _ => ⟨200, .successBody⟩

/-- `DELETE /api/pois/[id]`. -/
def poisIdDELETE (idExists : Bool) (unlink : Except String Unit) : Resp :=
  if !idExists then ⟨404, .errorBody "POI not found"⟩
  else
    match unlink with
    | .error m => ⟨500, .errorBody m⟩
    | .ok _ => ⟨200, .successBody⟩

/-- `GET /api/walkthroughs`. -/
def walkthroughsGET (read : Except String Unit) : Resp :=
  match read with
  | .ok _ => ⟨200, .dataBody⟩
  | .error m => ⟨500, .errorBody m⟩

/-- `POST /api/walkthroughs`. -/
def walkthroughsPOST (parse read write : Except String Unit) : Resp :=
  match parse with
  | .error m => ⟨500, .errorBody m⟩
  | .ok _ =>
    match read with
    | .error m => ⟨500, .errorBody m⟩
    | .ok _ =>
      match write with
      | .error m => ⟨500, .errorBody m⟩
      | .ok _ => ⟨201, .successBody⟩

/-- `GET /api/walkthroughs/[id]`. -/
def walkthroughsIdGET (pathId : String) (read : Except String (List String)) : Resp :=
  match read with
  | .error m => ⟨500, .errorBody m⟩
  | .ok ids =>
    if !(ids.contains pathId) then ⟨404, .errorBody "Walkthrough not found"⟩
    else ⟨200, .dataBody⟩

/-- `PUT /api/walkthroughs/[id]`. -/
def walkthroughsIdPUT (pathId : String) (parse : Except String Unit)
    (read : Except String (List String)) (write : Except String Unit) : Resp :=
  match parse with
  | .error m => ⟨500, .errorBody m⟩
  | .ok _ =>
    match read with
    | .error m => ⟨500, .errorBody m⟩
    | .ok ids =>
      if !(ids.contains pathId) then ⟨404, .errorBody "Walkthrough not found"⟩
      else
        match write with
        | .error m => ⟨500, .errorBody m⟩
        | .ok _ => ⟨200, .successBody⟩

/-- `DELETE /api/walkthroughs/[id]`. -/
def walkthroughsIdDELETE (pathId : String) (read : Except String (List String))
    (write : Except String Unit) : Resp :=
  match read with
  | .error m => ⟨500, .errorBody m⟩
  | .ok ids =>
    if !(ids.contains pathId) then ⟨404, .errorBody "Walkthrough not found"⟩
    else
      match write with
      | .error m => ⟨500, .errorBody m⟩
      | .ok _ => ⟨200, .successBody⟩

/-- `GET /api/tags`. -/
def tagsGET (read : Except String Unit) : Resp :=
  match read with
  | .ok _ => ⟨200, .dataBody⟩
  | .error m => ⟨500, .errorBody m⟩

/-- `POST /api/tags`: an existing tag is reported with 200 and no error
member, not as a conflict. -/
def tagsPOST (parse : Except String (Option String × Option String))
    (read : Except String (List String)) (write : Except String Unit) : Resp :=
  match parse with
  | .error m => ⟨500, .errorBody m⟩
  | .ok (key, name) =>
    if !(jsTruthyStr key && jsTruthyStr name) then
      ⟨400, .errorBody "Tag key and name are required"⟩
    else
      match read with
      | .error m => ⟨500, .errorBody m⟩
      | .ok existingKeys =>
        if existingKeys.contains (key.getD "") then ⟨200, .existsBody⟩
        else
          match write with
          | .error m => ⟨500, .errorBody m⟩
          | .ok _ => ⟨201, .successBody⟩

/-- `POST /api/upload`: the catch clause replaces the exception message with
a fixed `Upload failed`; a missing `file` form member gives 400. -/
def uploadPOST (form : Except String (Option Unit)) (write : Except String Unit) : Resp :=
  match form with
  | .error _ => ⟨500, .errorBody "Upload failed"⟩
  | .ok none => ⟨400, .errorBody "No file provided"⟩
  | .ok (some _) =>
    match write with
    | .error _ => ⟨500, .errorBody "Upload failed"⟩
    | .ok _ => ⟨200, .dataBody⟩

/-- One call to any of the API handlers, with the outcome of each fallible
step as input. -/
inductive HandlerCall where
  | categoriesGET (read : Except String Unit)
  | categoriesPOST (parse : Except String (Option String × Option String))
      (read : Except String (List String)) (write : Except String Unit)
  | listsGET (read : Except String Unit)
  | listsPOST (parse read write : Except String Unit)
  | listsIdGET (pathId : String) (read : Except String (List String))
  | listsIdPUT (pathId : String) (parse : Except String Unit)
      (read : Except String (List String)) (write : Except String Unit)
  | listsIdDELETE (pathId : String) (read : Except String (List String))
      (write : Except String Unit)
  | poisGET (read : Except String Unit)
  | poisPOST (parse write : Except String Unit)
  | poisIdGET (idExists : Bool) (read : Except String Unit)
  | poisIdPUT (idExists : Bool) (parse write : Except String Unit)
  | poisIdDELETE (idExists : Bool) (unlink : Except String Unit)
  | walkthroughsGET (read : Except String Unit)
  | walkthroughsPOST (parse read write : Except String Unit)
  | walkthroughsIdGET (pathId : String) (read : Except String (List String))
  | walkthroughsIdPUT (pathId : String) (parse : Except String Unit)
      (read : Except String (List String)) (write : Except String Unit)
  | walkthroughsIdDELETE (pathId : String) (read : Except String (List String))
      (write : Except String Unit)
  | tagsGET (read : Except String Unit)
  | tagsPOST (parse : Except String (Option String × Option String))
      (read : Except String (List String)) (write : Except String Unit)
  | uploadPOST (form : Except String (Option Unit)) (write : Except String Unit)

def apiResponse : HandlerCall → Resp
  | .categoriesGET read => categoriesGET read
  | .categoriesPOST parse read write => categoriesPOST parse read write
  | .listsGET read => listsGET read
  | .listsPOST parse read write => listsPOST parse read write
  | .listsIdGET pathId read => listsIdGET pathId read
  | .listsIdPUT pathId parse read write => listsIdPUT pathId parse read write
  | .listsIdDELETE pathId read write => listsIdDELETE pathId read write
  | .poisGET read => poisGET read
  | .poisPOST parse write => poisPOST parse write
  | .poisIdGET idExists read => poisIdGET idExists read
  | .poisIdPUT idExists parse write => poisIdPUT idExists parse write
  | .poisIdDELETE idExists unlink => poisIdDELETE idExists unlink
  | .walkthroughsGET read => walkthroughsGET read
  | .walkthroughsPOST parse read write => walkthroughsPOST parse read write
  | .walkthroughsIdGET pathId read => walkthroughsIdGET pathId read
  | .walkthroughsIdPUT pathId parse read write => walkthroughsIdPUT pathId parse read write
  | .walkthroughsIdDELETE pathId read write => walkthroughsIdDELETE pathId read write
  | .tagsGET read => tagsGET read
  | .tagsPOST parse read write => tagsPOST parse read write
  | .uploadPOST form write => uploadPOST form write

/-- The call hits an id-lookup miss (the condition that produces 404). -/
def isIdMiss : HandlerCall → Bool
  | .listsIdGET pathId (.ok ids) => !(ids.contains pathId)
  | .listsIdPUT pathId (.ok _) (.ok ids) _ => !(ids.contains pathId)
  | .listsIdDELETE pathId (.ok ids) _ => !(ids.contains pathId)
  | .poisIdGET idExists _ => !idExists
  | .poisIdPUT idExists _ _ => !idExists
  | .poisIdDELETE idExists _ => !idExists
  | .walkthroughsIdGET pathId (.ok ids) => !(ids.contains pathId)
  | .walkthroughsIdPUT pathId (.ok _) (.ok ids) _ => !(ids.contains pathId)
  | .walkthroughsIdDELETE pathId (.ok ids) _ => !(ids.contains pathId)
  | _ => false

/-- The call hits a missing-required-field check (the condition producing 400). -/
def isMissingField : HandlerCall → Bool
  | .categoriesPOST (.ok (key, name)) _ _ => !(jsTruthyStr key && jsTruthyStr name)
  | .tagsPOST (.ok (key, name)) _ _ => !(jsTruthyStr key && jsTruthyStr name)
  | .uploadPOST (.ok none) _ => true
  | _ => false

/-- Some step of the call throws and the generic catch clause answers. -/
def isThrown : HandlerCall → Bool
  | .categoriesGET read => isErr read
  | .categoriesPOST parse read write =>
    match parse with
    | .error _ => true
    | .ok (key, name) =>
      if !(jsTruthyStr key && jsTruthyStr name) then false
      else
        match read with
        | .error _ => true
        | .ok existingKeys =>
          if existingKeys.contains (key.getD "") then false else isErr write
  | .listsGET read => isErr read
  | .listsPOST parse read write =>
    isErr parse || (!isErr parse && isErr read) ||
      (!isErr parse && !isErr read && isErr write)
  | .listsIdGET _ read => isErr read
  | .listsIdPUT pathId parse read write =>
    match parse with
    | .error _ => true
    | .ok _ =>
      match read with
      | .error _ => true
      | .ok ids => !(!(ids.contains pathId)) && isErr write
  | .listsIdDELETE pathId read write =>
    match read with
    | .error _ => true
    | .ok ids => !(!(ids.contains pathId)) && isErr write
  | .poisGET read => isErr read
  | .poisPOST parse write => isErr parse || (!isErr parse && isErr write)
  | .poisIdGET idExists read => idExists && isErr read
  | .poisIdPUT idExists parse write =>
    idExists && (isErr parse || (!isErr parse && isErr write))
  | .poisIdDELETE idExists unlink => idExists && isErr unlink
  | .walkthroughsGET read => isErr read
  | .walkthroughsPOST parse read write =>
    isErr parse || (!isErr parse && isErr read) ||
      (!isErr parse && !isErr read && isErr write)
  | .walkthroughsIdGET _ read => isErr read
  | .walkthroughsIdPUT pathId parse read write =>
    match parse with
    | .error _ => true
    | .ok _ =>
      match read with
      | .error _ => true
      | .ok ids => !(!(ids.contains pathId)) && isErr write
  | .walkthroughsIdDELETE pathId read write =>
    match read with
    | .error _ => true
    | .ok ids => !(!(ids.contains pathId)) && isErr write
  | .tagsGET read => isErr read
  | .tagsPOST parse read write =>
    match parse with
    | .error _ => true
    | .ok (key, name) =>
      if !(jsTruthyStr key && jsTruthyStr name) then false
      else
        match read with
        | .error _ => true
        | .ok existingKeys =>
          if existingKeys.contains (key.getD "") then false else isErr write
  | .uploadPOST form write =>
    match form with
    | .error _ => true
    | .ok none => false
    | .ok (some _) => isErr write

/-- The call is a categories POST whose key already exists. -/
def isDupCategory : HandlerCall → Bool
  | .categoriesPOST (.ok (key, name)) (.ok existingKeys) _ =>
    (jsTruthyStr key && jsTruthyStr name) && existingKeys.contains (key.getD "")
  | _ => false

end Api

/-- C7 counterexample: posting an already existing category key produces an
error response with status 409, outside the claimed set 400, 404, 500. -/
theorem api_error_status_counterexample :
    Api.isErrorResp (Api.apiResponse
      (.categoriesPOST (.ok (some "food", some "Essen")) (.ok ["food"]) (.ok ()))) = true ∧
    (Api.apiResponse
      (.categoriesPOST (.ok (some "food", some "Essen")) (.ok ["food"]) (.ok ()))).status ∉
        ([400, 404, 500] : List ℕ) := by
  refine ⟨rfl, by decide⟩

/-- C7 (amended): every error response of every API handler carries an error
body and a status in 400, 404, 409, 500; an id-lookup miss yields 404, a
missing required field yields 400, a thrown exception yields 500, and the
one status outside the spec set 400, 404, 500 is the duplicate-category 409,
whose body also carries the existing category. -/
theorem api_error_statuses (c : Api.HandlerCall) :
    (Api.isErrorResp (Api.apiResponse c) = true →
      (Api.apiResponse c).status ∈ ([400, 404, 409, 500] : List ℕ)) ∧
    (Api.isIdMiss c = true →
      (Api.apiResponse c).status = 404 ∧ Api.isErrorResp (Api.apiResponse c) = true) ∧
    (Api.isMissingField c = true →
      (Api.apiResponse c).status = 400 ∧ Api.isErrorResp (Api.apiResponse c) = true) ∧
    (Api.isThrown c = true →
      (Api.apiResponse c).status = 500 ∧ Api.isErrorResp (Api.apiResponse c) = true) ∧
    (Api.isErrorResp (Api.apiResponse c) = true →
      (Api.apiResponse c).status ∉ ([400, 404, 500] : List ℕ) →
        Api.isDupCategory c = true ∧ (Api.apiResponse c).status = 409) := by
  cases c with
  | categoriesGET read =>
    rcases read with m | u <;>
      simp [Api.apiResponse, Api.categoriesGET, Api.isErrorResp, Api.isIdMiss,
        Api.isMissingField, Api.isThrown, Api.isDupCategory, Api.isErr]
  | categoriesPOST parse read write =>
    rcases parse with m | ⟨key, name⟩ <;> rcases read with m2 | keys <;>
      rcases write with m3 | u <;>
      simp [Api.apiResponse, Api.categoriesPOST, Api.isErrorResp, Api.isIdMiss,
        Api.isMissingField, Api.isThrown, Api.isDupCategory, Api.isErr] <;>
      split_ifs <;> simp_all <;> intros <;> simp_all
  | listsGET read =>
    rcases read with m | u <;>
      simp [Api.apiResponse, Api.listsGET, Api.isErrorResp, Api.isIdMiss,
        Api.isMissingField, Api.isThrown, Api.isDupCategory, Api.isErr]
  | listsPOST parse read write =>
    rcases parse with m | u <;> rcases read with m2 | u2 <;> rcases write with m3 | u3 <;>
      simp [Api.apiResponse, Api.listsPOST, Api.isErrorResp, Api.isIdMiss,
        Api.isMissingField, Api.isThrown, Api.isDupCategory, Api.isErr]
  | listsIdGET pathId read =>
    rcases read with m | ids <;>
      simp [Api.apiResponse, Api.listsIdGET, Api.isErrorResp, Api.isIdMiss,
        Api.isMissingField, Api.isThrown, Api.isDupCategory, Api.isErr] <;>
      split_ifs <;> simp_all
  | listsIdPUT pathId parse read write =>
    rcases parse with m | u <;> rcases read with m2 | ids <;> rcases write with m3 | u3 <;>
      simp [Api.apiResponse, Api.listsIdPUT, Api.isErrorResp, Api.isIdMiss,
        Api.isMissingField, Api.isThrown, Api.isDupCategory, Api.isErr] <;>
      split_ifs <;> simp_all
  | listsIdDELETE pathId read write =>
    rcases read with m | ids <;> rcases write with m2 | u <;>
      simp [Api.apiResponse, Api.listsIdDELETE, Api.isErrorResp, Api.isIdMiss,
        Api.isMissingField, Api.isThrown, Api.isDupCategory, Api.isErr] <;>
      split_ifs <;> simp_all
  | poisGET read =>
    rcases read with m | u <;>
      simp [Api.apiResponse, Api.poisGET, Api.isErrorResp, Api.isIdMiss,
        Api.isMissingField, Api.isThrown, Api.isDupCategory, Api.isErr]
  | poisPOST parse write =>
    rcases parse with m | u <;> rcases write with m2 | u2 <;>
      simp [Api.apiResponse, Api.poisPOST, Api.isErrorResp, Api.isIdMiss,
        Api.isMissingField, Api.isThrown, Api.isDupCategory, Api.isErr]
  | poisIdGET idExists read =>
    cases idExists <;> rcases read with m | u <;>
      simp [Api.apiResponse, Api.poisIdGET, Api.isErrorResp, Api.isIdMiss,
        Api.isMissingField, Api.isThrown, Api.isDupCategory, Api.isErr]
  | poisIdPUT idExists parse write =>
    cases idExists <;> rcases parse with m | u <;> rcases write with m2 | u2 <;>
      simp [Api.apiResponse, Api.poisIdPUT, Api.isErrorResp, Api.isIdMiss,
        Api.isMissingField, Api.isThrown, Api.isDupCategory, Api.isErr]
  | poisIdDELETE idExists unlink =>
    cases idExists <;> rcases unlink with m | u <;>
      simp [Api.apiResponse, Api.poisIdDELETE, Api.isErrorResp, Api.isIdMiss,
        Api.isMissingField, Api.isThrown, Api.isDupCategory, Api.isErr]
  | walkthroughsGET read =>
    rcases read with m | u <;>
      simp [Api.apiResponse, Api.walkthroughsGET, Api.isErrorResp, Api.isIdMiss,
        Api.isMissingField, Api.isThrown, Api.isDupCategory, Api.isErr]
  | walkthroughsPOST parse read write =>
    rcases parse with m | u <;> rcases read with m2 | u2 <;> rcases write with m3 | u3 <;>
      simp [Api.apiResponse, Api.walkthroughsPOST, Api.isErrorResp, Api.isIdMiss,
        Api.isMissingField, Api.isThrown, Api.isDupCategory, Api.isErr]
  | walkthroughsIdGET pathId read =>
    rcases read with m | ids <;>
      simp [Api.apiResponse, Api.walkthroughsIdGET, Api.isErrorResp, Api.isIdMiss,
        Api.isMissingField, Api.isThrown, Api.isDupCategory, Api.isErr] <;>
      split_ifs <;> simp_all
  | walkthroughsIdPUT pathId parse read write =>
    rcases parse with m | u <;> rcases read with m2 | ids <;> rcases write with m3 | u3 <;>
      simp [Api.apiResponse, Api.walkthroughsIdPUT, Api.isErrorResp, Api.isIdMiss,
        Api.isMissingField, Api.isThrown, Api.isDupCategory, Api.isErr] <;>
      split_ifs <;> simp_all
  | walkthroughsIdDELETE pathId read write =>
    rcases read with m | ids <;> rcases write with m2 | u <;>
      simp [Api.apiResponse, Api.walkthroughsIdDELETE, Api.isErrorResp, Api.isIdMiss,
        Api.isMissingField, Api.isThrown, Api.isDupCategory, Api.isErr] <;>
      split_ifs <;> simp_all
  | tagsGET read =>
    rcases read with m | u <;>
      simp [Api.apiResponse, Api.tagsGET, Api.isErrorResp, Api.isIdMiss,
        Api.isMissingField, Api.isThrown, Api.isDupCategory, Api.isErr]
  | tagsPOST parse read write =>
    rcases parse with m | ⟨key, name⟩ <;> rcases read with m2 | keys <;>
      rcases write with m3 | u <;>
      simp [Api.apiResponse, Api.tagsPOST, Api.isErrorResp, Api.isIdMiss,
        Api.isMissingField, Api.isThrown, Api.isDupCategory, Api.isErr] <;>
      split_ifs <;> simp_all <;> intros <;> simp_all
  | uploadPOST form write =>
    rcases form with m | f <;> try rcases f with _ | u
    all_goals rcases write with m2 | u2 <;>
      simp [Api.apiResponse, Api.uploadPOST, Api.isErrorResp, Api.isIdMiss,
        Api.isMissingField, Api.isThrown, Api.isDupCategory, Api.isErr]

/-- Witness for the amended C7: a 404 id miss, a 400 missing field, a 500
thrown exception, and the 409 duplicate category, each at a concrete call. -/
theorem api_error_statuses_witness :
    (Api.isIdMiss (.listsIdGET "x" (.ok [])) = true ∧
      (Api.apiResponse (.listsIdGET "x" (.ok []))).status = 404) ∧
    (Api.isMissingField (.categoriesPOST (.ok (none, none)) (.ok []) (.ok ())) = true ∧
      (Api.apiResponse (.categoriesPOST (.ok (none, none)) (.ok []) (.ok ()))).status = 400) ∧
    (Api.isThrown (.listsGET (.error "boom")) = true ∧
      (Api.apiResponse (.listsGET (.error "boom"))).status = 500 ∧
      (Api.apiResponse (.listsGET (.error "boom"))).status ∈ ([400, 404, 409, 500] : List ℕ)) ∧
    (Api.isDupCategory
        (.categoriesPOST (.ok (some "food", some "Essen")) (.ok ["food"]) (.ok ())) = true ∧
      (Api.apiResponse
        (.categoriesPOST (.ok (some "food", some "Essen")) (.ok ["food"]) (.ok ()))).status =
          409) :=
  ⟨⟨rfl, ((api_error_statuses (.listsIdGET "x" (.ok []))).2.1 rfl).1⟩,
   ⟨rfl, ((api_error_statuses
      (.categoriesPOST (.ok (none, none)) (.ok []) (.ok ()))).2.2.1 rfl).1⟩,
   ⟨rfl, ((api_error_statuses (.listsGET (.error "boom"))).2.2.2.1 rfl).1,
    (api_error_statuses (.listsGET (.error "boom"))).1 rfl⟩,
   ⟨rfl, ((api_error_statuses
      (.categoriesPOST (.ok (some "food", some "Essen")) (.ok ["food"]) (.ok ()))).2.2.2.2
        rfl (by decide)).2⟩⟩

namespace Geo

/-- The point lies on the closed segment from `a` to `b` (exact rational
collinearity plus bounding-box membership). -/
def onSegment (p a b : Pt) : Prop :=
  (b.1 - a.1) * (p.2 - a.2) = (b.2 - a.2) * (p.1 - a.1) ∧
  min a.1 b.1 ≤ p.1 ∧ p.1 ≤ max a.1 b.1 ∧
  min a.2 b.2 ≤ p.2 ∧ p.2 ≤ max a.2 b.2

instance (p a b : Pt) : Decidable (onSegment p a b) := by
  unfold onSegment
  infer_instance

/-- The point lies on some edge of the (trimmed) ring. -/
def onRingBoundary (p : Pt) (ring : List Pt) : Prop :=
  ∃ e ∈ Turf.ringEdges (Turf.trimRing ring), onSegment p e.1 e.2

instance (p : Pt) (ring : List Pt) : Decidable (onRingBoundary p ring) := by
  unfold onRingBoundary
  infer_instance

/-- The rightward horizontal ray from `p` crosses the edge `e = (vj, vi)`:
the edge straddles the ray height (lower endpoint inclusive, upper
exclusive) and the intersection abscissa lies strictly right of `p`. -/
def edgeCrosses (p : Pt) (e : Pt × Pt) : Prop :=
  ((e.2.2 ≤ p.2 ∧ p.2 < e.1.2) ∨ (e.1.2 ≤ p.2 ∧ p.2 < e.2.2)) ∧
  p.1 < e.2.1 + (e.1.1 - e.2.1) * (p.2 - e.2.2) / (e.1.2 - e.2.2)

instance (p : Pt) (e : Pt × Pt) : Decidable (edgeCrosses p e) := by
  unfold edgeCrosses
  infer_instance

/-- Number of ring edges crossed by the rightward ray from `p`. -/
def crossingNumber (p : Pt) (ring : List Pt) : ℕ :=
  ((Turf.ringEdges (Turf.trimRing ring)).filter fun e => decide (edgeCrosses p e)).length

/-- Even-odd interior of a single ring, excluding the boundary. -/
def strictlyInRing (p : Pt) (ring : List Pt) : Prop :=
  ¬ onRingBoundary p ring ∧ Odd (crossingNumber p ring)

/-- Strictly inside a polygon with holes: strictly interior to the outer
ring and strictly exterior to every hole. -/
def strictlyInPolygon (p : Pt) (rings : List (List Pt)) : Prop :=
  ∃ outer holes, rings = outer :: holes ∧ strictlyInRing p outer ∧
    ∀ h ∈ holes, ¬ onRingBoundary p h ∧ ¬ Odd (crossingNumber p h)

/-- The point lies strictly outside the bounding box of all polygon
vertices, in one of the four axis directions. -/
def outsideBBox (p : Pt) (rings : List (List Pt)) : Prop :=
  (∀ v ∈ rings.flatten, v.1 < p.1) ∨ (∀ v ∈ rings.flatten, p.1 < v.1) ∨
  (∀ v ∈ rings.flatten, v.2 < p.2) ∨ (∀ v ∈ rings.flatten, p.2 < v.2)

theorem prod_nonpos_iff_between (a b c : ℚ) :
    (a - c) * (b - c) ≤ 0 ↔ min a b ≤ c ∧ c ≤ max a b := by
  rcases le_total a b with hab | hab
  · rw [min_eq_left hab, max_eq_right hab]
    constructor
    · intro h
      constructor
      · by_contra hc
        push_neg at hc
        nlinarith
      · by_contra hc
        push_neg at hc
        nlinarith
    · rintro ⟨h1, h2⟩
      nlinarith
  · rw [min_eq_right hab, max_eq_left hab]
    constructor
    · intro h
      constructor
      · by_contra hc
        push_neg at hc
        nlinarith
      · by_contra hc
        push_neg at hc
        nlinarith
    · rintro ⟨h1, h2⟩
      nlinarith

/-- The implemented boundary test decides membership of the closed edge
segment. -/
theorem onBoundaryTest_iff (p vj vi : Pt) :
    Turf.onBoundaryTest p vj vi = true ↔ onSegment p vj vi := by
  unfold Turf.onBoundaryTest onSegment
  simp only [Bool.and_eq_true, decide_eq_true_eq]
  constructor
  · rintro ⟨⟨hD, hX⟩, hY⟩
    have hX' := (prod_nonpos_iff_between vi.1 vj.1 p.1).mp hX
    have hY' := (prod_nonpos_iff_between vi.2 vj.2 p.2).mp hY
    refine ⟨by linear_combination hD, ?_, ?_, ?_, ?_⟩
    · rw [min_comm]
      exact hX'.1
    · rw [max_comm]
      exact hX'.2
    · rw [min_comm]
      exact hY'.1
    · rw [max_comm]
      exact hY'.2
  · rintro ⟨hD, h1, h2, h3, h4⟩
    refine ⟨⟨by linear_combination hD, ?_⟩, ?_⟩
    · exact (prod_nonpos_iff_between vi.1 vj.1 p.1).mpr ⟨by rwa [min_comm], by rwa [max_comm]⟩
    · exact (prod_nonpos_iff_between vi.2 vj.2 p.2).mpr ⟨by rwa [min_comm], by rwa [max_comm]⟩

/-- The implemented ray test decides the mathematical crossing relation. -/
theorem intersectTest_iff (p vj vi : Pt) :
    Turf.intersectTest p vj vi = true ↔ edgeCrosses p (vj, vi) := by
  unfold Turf.intersectTest edgeCrosses
  simp only [Bool.and_eq_true, bne_iff_ne, ne_eq, decide_eq_decide, decide_eq_true_eq]
  constructor
  · rintro ⟨hne, hx⟩
    refine ⟨?_, by linarith⟩
    by_cases hA : vi.2 > p.2 <;> by_cases hB : vj.2 > p.2
    · exact absurd (iff_of_true hA hB) hne
    · exact Or.inr ⟨le_of_not_lt hB, hA⟩
    · exact Or.inl ⟨le_of_not_lt hA, hB⟩
    · exact absurd (iff_of_false hA hB) hne
  · rintro ⟨hst, hx⟩
    refine ⟨?_, by linarith⟩
    rcases hst with ⟨h1, h2⟩ | ⟨h1, h2⟩
    · intro hiff
      have := hiff.mpr h2
      linarith
    · intro hiff
      have := hiff.mp h2
      linarith

/-- Under the straddle condition the intersection abscissa lies between the
abscissas of the edge endpoints. -/
theorem xcross_bounds (p vj vi : Pt)
    (hst : (vi.2 ≤ p.2 ∧ p.2 < vj.2) ∨ (vj.2 ≤ p.2 ∧ p.2 < vi.2)) :
    min vi.1 vj.1 ≤ vi.1 + (vj.1 - vi.1) * (p.2 - vi.2) / (vj.2 - vi.2) ∧
    vi.1 + (vj.1 - vi.1) * (p.2 - vi.2) / (vj.2 - vi.2) ≤ max vi.1 vj.1 := by
  set d : ℚ := vj.2 - vi.2 with hd
  set t : ℚ := (p.2 - vi.2) / d with ht
  have hexpr : (vj.1 - vi.1) * (p.2 - vi.2) / d = (vj.1 - vi.1) * t := by
    rw [ht, mul_div_assoc]
  have htb : 0 ≤ t ∧ t ≤ 1 := by
    rcases hst with ⟨h1, h2⟩ | ⟨h1, h2⟩
    · have hdpos : 0 < d := by rw [hd]; linarith
      constructor
      · exact div_nonneg (by linarith) hdpos.le
      · rw [ht]
        rw [div_le_one hdpos]
        linarith
    · have hdneg : d < 0 := by rw [hd]; linarith
      constructor
      · rw [ht]
        exact le_of_lt (div_pos_of_neg_of_neg (by linarith) hdneg)
      · rw [ht]
        rw [div_le_one_of_neg hdneg]
        linarith
  obtain ⟨ht0, ht1⟩ := htb
  rw [hexpr]
  rcases le_total vi.1 vj.1 with hab | hab
  · rw [min_eq_left hab, max_eq_right hab]
    constructor
    · nlinarith
    · nlinarith
  · rw [min_eq_right hab, max_eq_left hab]
    constructor
    · nlinarith
    · nlinarith

end Geo

namespace Geo

/-- When no edge triggers the boundary early return, the loop computes the
exclusive-or of the accumulator with the parity of the crossing count. -/
theorem inRingEdges_parity (p : Pt) (ib : Bool) (edges : List (Pt × Pt))
    (hb : ∀ e ∈ edges, Turf.onBoundaryTest p e.1 e.2 = false) (acc : Bool) :
    Turf.inRingEdges p ib acc edges =
      (acc != decide (Odd (edges.filter fun e => Turf.intersectTest p e.1 e.2).length)) := by
  induction edges generalizing acc with
  | nil => simp [Turf.inRingEdges, Nat.odd_iff]
  | cons e es ih =>
    obtain ⟨vj, vi⟩ := e
    have hbe := hb _ (List.mem_cons_self _ _)
    have hbes : ∀ e ∈ es, Turf.onBoundaryTest p e.1 e.2 = false :=
      fun e he => hb e (List.mem_cons_of_mem _ he)
    rw [List.filter_cons]
    by_cases hi : Turf.intersectTest p vj vi = true
    · simp only [Turf.inRingEdges, hbe, Bool.false_eq_true, if_false, hi, if_true,
        ih hbes, List.length_cons]
      have hodd : decide (Odd ((es.filter fun e => Turf.intersectTest p e.1 e.2).length + 1)) =
          !decide (Odd (es.filter fun e => Turf.intersectTest p e.1 e.2).length) := by
        by_cases h : Odd (es.filter fun e => Turf.intersectTest p e.1 e.2).length
        · simp [Nat.odd_add_one, h]
        · simp [Nat.odd_add_one, h]
      rw [hodd]
      cases acc <;>
        cases hdn : decide (Odd (es.filter fun e => Turf.intersectTest p e.1 e.2).length) <;>
        rfl
    · simp only [Turf.inRingEdges, hbe, Bool.false_eq_true, if_false, hi, ih hbes]

theorem edgesFrom_mem (g : Pt) (l : List Pt) (e : Pt × Pt)
    (he : e ∈ Turf.edgesFrom g l) : (e.1 = g ∨ e.1 ∈ l) ∧ e.2 ∈ l := by
  induction l generalizing g with
  | nil => simp [Turf.edgesFrom] at he
  | cons v rest ih =>
    simp only [Turf.edgesFrom, List.mem_cons] at he
    rcases he with rfl | he
    · exact ⟨Or.inl rfl, List.mem_cons_self _ _⟩
    · obtain ⟨h1, h2⟩ := ih v he
      rcases h1 with h1 | h1
    
      · exact ⟨Or.inr (h1 ▸ List.mem_cons_self _ _), List.mem_cons_of_mem _ h2⟩
      · exact ⟨Or.inr (List.mem_cons_of_mem _ h1), List.mem_cons_of_mem _ h2⟩

theorem ringEdges_mem (l : List Pt) (e : Pt × Pt) (he : e ∈ Turf.ringEdges l) :
    e.1 ∈ l ∧ e.2 ∈ l := by
  unfold Turf.ringEdges at he
  cases hg : l.getLast? with
  | none => rw [hg] at he; simp at he
  | some g =>
    rw [hg] at he
    obtain ⟨h1, h2⟩ := edgesFrom_mem g l e he
    refine ⟨?_, h2⟩
    rcases h1 with h1 | h1
    · rw [h1]
      exact List.mem_of_mem_getLast? hg
    · exact h1

theorem trimRing_subset (ring : List Pt) : ∀ v ∈ Turf.trimRing ring, v ∈ ring := by
  intro v hv
  unfold Turf.trimRing at hv
  split at hv
  · split at hv
    · exact (List.dropLast_sublist _).subset hv
    · exact hv
  · exact hv

/-- Along the cyclic edge list the number of positions where a boolean
labelling of the vertices changes is even. -/
theorem edgesFrom_changes_parity (f : Pt → Bool) (l : List Pt) (g : Pt) :
    ((Turf.edgesFrom g l).filter fun e => f e.2 != f e.1).length % 2 =
      (if f (l.getLastD g) = f g then 0 else 1) := by
  induction l generalizing g with
  | nil => simp [Turf.edgesFrom]
  | cons v rest ih =>
    have hrec := ih v
    have hstep : ((v :: rest).getLast?).getD g = (rest.getLast?).getD v := by
      rw [← List.getLastD_eq_getLast?, ← List.getLastD_eq_getLast?, List.getLastD_cons]
    cases hfg : f g <;> cases hfv : f v <;> cases hfl : f (rest.getLast?.getD v) <;>
      simp [List.filter_cons, hfg, hfv, hfl, Turf.edgesFrom, hstep]
        at hrec ⊢ <;>
      omega

theorem ringEdges_changes_even (f : Pt → Bool) (l : List Pt) :
    Even ((Turf.ringEdges l).filter fun e => f e.2 != f e.1).length := by
  unfold Turf.ringEdges
  cases hg : l.getLast? with
  | none => simp
  | some g =>
    have h := edgesFrom_changes_parity f l g
    have hlast : l.getLastD g = g := by
      rw [List.getLastD_eq_getLast?, hg]
      rfl
    rw [hlast, if_pos rfl] at h
    exact Nat.even_iff.mpr h

/-- Pointwise agreement of the implemented test with the crossing relation. -/
theorem intersectTest_eq_decide (p : Pt) (e : Pt × Pt) :
    Turf.intersectTest p e.1 e.2 = decide (edgeCrosses p e) := by
  obtain ⟨vj, vi⟩ := e
  by_cases hc : edgeCrosses p (vj, vi)
  · rw [decide_eq_true hc]
    exact (intersectTest_iff p vj vi).mpr hc
  · rw [decide_eq_false hc]
    by_contra hcon
    rw [Bool.not_eq_false] at hcon
    exact hc ((intersectTest_iff p vj vi).mp hcon)

/-- Off the ring boundary, `inRing` decides odd crossing parity, for either
boundary mode. -/
theorem inRing_eq_decide_odd (p : Pt) (ring : List Pt) (ib : Bool)
    (hb : ¬ onRingBoundary p ring) :
    Turf.inRing p ring ib = decide (Odd (crossingNumber p ring)) := by
  unfold Turf.inRing
  have hbe : ∀ e ∈ Turf.ringEdges (Turf.trimRing ring),
      Turf.onBoundaryTest p e.1 e.2 = false := by
    intro e he
    by_contra hc
    rw [Bool.not_eq_false] at hc
    exact hb ⟨e, he, (onBoundaryTest_iff p e.1 e.2).mp hc⟩
  rw [inRingEdges_parity p ib _ hbe false]
  have hfe : (Turf.ringEdges (Turf.trimRing ring)).filter
        (fun e => Turf.intersectTest p e.1 e.2) =
      (Turf.ringEdges (Turf.trimRing ring)).filter (fun e => decide (edgeCrosses p e)) :=
    List.filter_congr fun e _ => intersectTest_eq_decide p e
  rw [crossingNumber, ← hfe]
  cases hd : decide (Odd ((Turf.ringEdges (Turf.trimRing ring)).filter
      (fun e => Turf.intersectTest p e.1 e.2)).length) <;> simp [hd]

end Geo

namespace Geo

theorem bne_gt_iff (a b y : ℚ) :
    (decide (a > y) != decide (b > y)) = true ↔ ((a ≤ y ∧ y < b) ∨ (b ≤ y ∧ y < a)) := by
  simp only [bne_iff_ne, ne_eq, decide_eq_decide]
  constructor
  · intro hne
    by_cases hA : a > y <;> by_cases hB : b > y
    · exact absurd (iff_of_true hA hB) hne
    · exact Or.inr ⟨le_of_not_lt hB, hA⟩
    · exact Or.inl ⟨le_of_not_lt hA, hB⟩
    · exact absurd (iff_of_false hA hB) hne
  · rintro (⟨h1, h2⟩ | ⟨h1, h2⟩) hiff
    · have := hiff.mpr h2
      linarith
    · have := hiff.mp h2
      linarith

/-- The first half of the claim: a point strictly inside the polygon in the
even-odd sense is reported inside. -/
theorem pip_of_strictlyInPolygon (p : Pt) (rings : List (List Pt))
    (h : strictlyInPolygon p rings) :
    Turf.booleanPointInPolygon p rings none = true := by
  obtain ⟨outer, holes, rfl, ⟨hob, hodd⟩, hholes⟩ := h
  show Turf.pipCore p (outer :: holes) = true
  rw [show Turf.pipCore p (outer :: holes) =
    (if Turf.inRing p outer false then !(holes.any fun hl => Turf.inRing p hl true)
     else false) from rfl]
  rw [inRing_eq_decide_odd p outer false hob, decide_eq_true hodd, if_pos rfl,
    Bool.not_eq_true']
  rw [List.any_eq_false]
  intro hole hmem
  obtain ⟨hb, hnodd⟩ := hholes hole hmem
  show ¬ (Turf.inRing p hole true = true)
  rw [inRing_eq_decide_odd p hole true hb]
  simp only [decide_eq_true_eq]
  exact hnodd

/-- A point beyond the ring vertices in any one axis direction is reported
outside by the ray-casting loop, whatever the boundary mode. -/
theorem inRing_false_of_outside (p : Pt) (ring : List Pt) (ib : Bool)
    (h : (∀ v ∈ ring, v.1 < p.1) ∨ (∀ v ∈ ring, p.1 < v.1) ∨
         (∀ v ∈ ring, v.2 < p.2) ∨ (∀ v ∈ ring, p.2 < v.2)) :
    Turf.inRing p ring ib = false := by
  have hmem : ∀ e ∈ Turf.ringEdges (Turf.trimRing ring), e.1 ∈ ring ∧ e.2 ∈ ring := by
    intro e he
    have hm := ringEdges_mem _ e he
    exact ⟨trimRing_subset _ _ hm.1, trimRing_subset _ _ hm.2⟩
  rcases h with h | h | h | h
  · -- every vertex strictly left of the point
    have hb : ∀ e ∈ Turf.ringEdges (Turf.trimRing ring),
        Turf.onBoundaryTest p e.1 e.2 = false := by
      intro e he
      obtain ⟨h1, h2⟩ := hmem e he
      unfold Turf.onBoundaryTest
      have hx : ¬((e.2.1 - p.1) * (e.1.1 - p.1) ≤ 0) := by
        nlinarith [h _ h1, h _ h2]
      simp [hx]
    rw [Turf.inRing, inRingEdges_parity p ib _ hb false]
    have hcount : ((Turf.ringEdges (Turf.trimRing ring)).filter
        fun e => Turf.intersectTest p e.1 e.2) = [] := by
      rw [List.filter_eq_nil_iff]
      intro e he hc
      obtain ⟨h1, h2⟩ := hmem e he
      obtain ⟨hst, hx⟩ := (intersectTest_iff p e.1 e.2).mp hc
      obtain ⟨hlo, hhi⟩ := xcross_bounds p e.1 e.2 hst
      have hmax : max e.2.1 e.1.1 < p.1 := max_lt (h _ h2) (h _ h1)
      linarith
    rw [hcount]
    rfl
  · -- every vertex strictly right of the point: crossing equals straddling,
    -- and the cyclic straddle count is even
    have hb : ∀ e ∈ Turf.ringEdges (Turf.trimRing ring),
        Turf.onBoundaryTest p e.1 e.2 = false := by
      intro e he
      obtain ⟨h1, h2⟩ := hmem e he
      unfold Turf.onBoundaryTest
      have hx : ¬((e.2.1 - p.1) * (e.1.1 - p.1) ≤ 0) := by
        nlinarith [h _ h1, h _ h2]
      simp [hx]
    rw [Turf.inRing, inRingEdges_parity p ib _ hb false]
    have hcongr : ((Turf.ringEdges (Turf.trimRing ring)).filter
          fun e => Turf.intersectTest p e.1 e.2) =
        ((Turf.ringEdges (Turf.trimRing ring)).filter
          fun e => (fun v : Pt => decide (v.2 > p.2)) e.2 !=
            (fun v : Pt => decide (v.2 > p.2)) e.1) := by
      apply List.filter_congr
      intro e he
      obtain ⟨h1, h2⟩ := hmem e he
      show Turf.intersectTest p e.1 e.2 = (decide (e.2.2 > p.2) != decide (e.1.2 > p.2))
      cases hst : (decide (e.2.2 > p.2) != decide (e.1.2 > p.2)) with
      | true =>
        have hstp := (bne_gt_iff e.2.2 e.1.2 p.2).mp hst
        apply (intersectTest_iff p e.1 e.2).mpr
        refine ⟨hstp, ?_⟩
        obtain ⟨hlo, hhi⟩ := xcross_bounds p e.1 e.2 hstp
        have hmin : p.1 < min e.2.1 e.1.1 := lt_min (h _ h2) (h _ h1)
        linarith
      | false =>
        by_contra hc
        rw [Bool.not_eq_false] at hc
        obtain ⟨hstp, _⟩ := (intersectTest_iff p e.1 e.2).mp hc
        have := (bne_gt_iff e.2.2 e.1.2 p.2).mpr hstp
        rw [hst] at this
        exact Bool.false_ne_true this
    rw [hcongr]
    have heven := ringEdges_changes_even (fun v : Pt => decide (v.2 > p.2))
      (Turf.trimRing ring)
    rw [decide_eq_false (by simpa [Nat.not_odd_iff_even] using heven)]
    rfl
  · -- every vertex strictly below the point
    have hb : ∀ e ∈ Turf.ringEdges (Turf.trimRing ring),
        Turf.onBoundaryTest p e.1 e.2 = false := by
      intro e he
      obtain ⟨h1, h2⟩ := hmem e he
      unfold Turf.onBoundaryTest
      have hy : ¬((e.2.2 - p.2) * (e.1.2 - p.2) ≤ 0) := by
        nlinarith [h _ h1, h _ h2]
      simp [hy]
    rw [Turf.inRing, inRingEdges_parity p ib _ hb false]
    have hcount : ((Turf.ringEdges (Turf.trimRing ring)).filter
        fun e => Turf.intersectTest p e.1 e.2) = [] := by
      rw [List.filter_eq_nil_iff]
      intro e he hc
      obtain ⟨h1, h2⟩ := hmem e he
      obtain ⟨hst, _⟩ := (intersectTest_iff p e.1 e.2).mp hc
      rcases hst with ⟨ha, hb2⟩ | ⟨ha, hb2⟩
      · exact absurd (h _ h1) (by linarith)
      · exact absurd (h _ h2) (by linarith)
    rw [hcount]
    rfl
  · -- every vertex strictly above the point
    have hb : ∀ e ∈ Turf.ringEdges (Turf.trimRing ring),
        Turf.onBoundaryTest p e.1 e.2 = false := by
      intro e he
      obtain ⟨h1, h2⟩ := hmem e he
      unfold Turf.onBoundaryTest
      have hy : ¬((e.2.2 - p.2) * (e.1.2 - p.2) ≤ 0) := by
        nlinarith [h _ h1, h _ h2]
      simp [hy]
    rw [Turf.inRing, inRingEdges_parity p ib _ hb false]
    have hcount : ((Turf.ringEdges (Turf.trimRing ring)).filter
        fun e => Turf.intersectTest p e.1 e.2) = [] := by
      rw [List.filter_eq_nil_iff]
      intro e he hc
      obtain ⟨h1, h2⟩ := hmem e he
      obtain ⟨hst, _⟩ := (intersectTest_iff p e.1 e.2).mp hc
      rcases hst with ⟨ha, hb2⟩ | ⟨ha, hb2⟩
      · exact absurd (h _ h2) (by linarith)
      · exact absurd (h _ h1) (by linarith)
    rw [hcount]
    rfl

/-- The second half of the claim: a point strictly outside the bounding box
of the polygon vertices is reported outside. -/
theorem pip_false_of_outsideBBox (p : Pt) (rings : List (List Pt))
    (h : outsideBBox p rings) :
    Turf.booleanPointInPolygon p rings none = false := by
  show Turf.pipCore p rings = false
  cases rings with
  | nil => rfl
  | cons outer holes =>
    rw [show Turf.pipCore p (outer :: holes) =
      (if Turf.inRing p outer false then !(holes.any fun hl => Turf.inRing p hl true)
       else false) from rfl]
    have hsub : ∀ v ∈ outer, v ∈ (outer :: holes).flatten := by
      intro v hv
      exact List.mem_flatten.mpr ⟨outer, List.mem_cons_self _ _, hv⟩
    have houter : Turf.inRing p outer false = false := by
      apply inRing_false_of_outside
      rcases h with h | h | h | h
      · exact Or.inl fun v hv => h v (hsub v hv)
      · exact Or.inr (Or.inl fun v hv => h v (hsub v hv))
      · exact Or.inr (Or.inr (Or.inl fun v hv => h v (hsub v hv)))
      · exact Or.inr (Or.inr (Or.inr fun v hv => h v (hsub v hv)))
    rw [houter]
    simp

end Geo

/-- C4: for the point-in-polygon test used by the geo-query layer, every
point strictly inside a polygon (even-odd interior, off the boundary and
outside every hole) is reported inside, and every point strictly outside
the bounding box of the polygon vertices is reported outside. -/
theorem booleanPointInPolygon_correct (p : Pt) (rings : List (List Pt)) :
    (Geo.strictlyInPolygon p rings → Turf.booleanPointInPolygon p rings none = true) ∧
    (Geo.outsideBBox p rings → Turf.booleanPointInPolygon p rings none = false) :=
  ⟨Geo.pip_of_strictlyInPolygon p rings, Geo.pip_false_of_outsideBBox p rings⟩

/-- The demonstration square ring, explicitly closed. -/
def sqRing : List Pt := [(0, 0), (4, 0), (4, 4), (0, 4), (0, 0)]

/-- Witness for C4 at a concrete square: an interior point is reported
inside and a far-away point is reported outside. -/
theorem booleanPointInPolygon_correct_witness :
    Geo.strictlyInPolygon (1, 2) [sqRing] ∧
    Turf.booleanPointInPolygon (1, 2) [sqRing] none = true ∧
    Geo.outsideBBox (10, 10) [sqRing] ∧
    Turf.booleanPointInPolygon (10, 10) [sqRing] none = false := by
  have hedges : Turf.ringEdges (Turf.trimRing sqRing) =
      [((0, 4), (0, 0)), ((0, 0), (4, 0)), ((4, 0), (4, 4)), ((4, 4), (0, 4))] := rfl
  have hc1 : ¬ Geo.edgeCrosses (1, 2) ((0, 4), (0, 0)) := by
    norm_num [Geo.edgeCrosses]
  have hc2 : ¬ Geo.edgeCrosses (1, 2) ((0, 0), (4, 0)) := by
    norm_num [Geo.edgeCrosses]
  have hc3 : Geo.edgeCrosses (1, 2) ((4, 0), (4, 4)) := by
    norm_num [Geo.edgeCrosses]
  have hc4 : ¬ Geo.edgeCrosses (1, 2) ((4, 4), (0, 4)) := by
    norm_num [Geo.edgeCrosses]
  have hcn : Geo.crossingNumber (1, 2) sqRing = 1 := by
    unfold Geo.crossingNumber
    rw [hedges]
    rw [List.filter_cons, List.filter_cons, List.filter_cons, List.filter_cons]
    rw [decide_eq_false hc1, decide_eq_false hc2, decide_eq_true hc3, decide_eq_false hc4]
    rfl
  have hodd : Odd (Geo.crossingNumber (1, 2) sqRing) := by
    rw [hcn]
    decide
  have hb : ¬ Geo.onRingBoundary (1, 2) sqRing := by
    unfold Geo.onRingBoundary
    rw [hedges]
    rintro ⟨e, he, hseg⟩
    simp only [List.mem_cons, List.not_mem_nil, or_false] at he
    rcases he with rfl | rfl | rfl | rfl <;> revert hseg <;> norm_num [Geo.onSegment]
  have hin : Geo.strictlyInPolygon (1, 2) [sqRing] :=
    ⟨sqRing, [], rfl, ⟨hb, hodd⟩, by simp⟩
  have hout : Geo.outsideBBox (10, 10) [sqRing] := by
    unfold Geo.outsideBBox
    right
    right
    left
    intro v hv
    simp only [List.flatten, List.append_nil, sqRing, List.mem_cons,
      List.not_mem_nil, or_false] at hv
    rcases hv with rfl | rfl | rfl | rfl | rfl <;> norm_num
  exact ⟨hin, (booleanPointInPolygon_correct _ _).1 hin, hout,
    (booleanPointInPolygon_correct _ _).2 hout⟩
